import Mathlib

/-!
Shallow embedding of the calendrical conversion functions of libcalendar.
Date components are modelled as `Int` (the Go source stores exact integers in
`float64`; all arithmetic on them — addition, multiplication, `math.Floor` of
quotients — is exact for the magnitudes involved, so `Int` with floor
division/floored modulus is the faithful model).  The Go helper `sum`
(a `while p(i)` accumulation loop) is embedded with an explicit fuel
parameter; every use in the theorems below is shown (or chosen at call sites)
to terminate within the supplied fuel, where the loop's value is
fuel-independent.  Fallible functions returning `math.NaN()` are embedded as
`Option`-returning functions (`none` = NaN sentinel).
-/

namespace Libcalendar

-- mod computes the positive remainder of a mod b (Go: r := a - b*Floor(a/b); if r < 0 { r += b })
def mod (a b : Int) : Int :=
  let r := a - b * Int.fdiv a b
  if r < 0 then r + b else r

-- amod computes the adjusted positive remainder Mod(a-1, b) + 1
def amod (a b : Int) : Int :=
  mod (a - 1) b + 1

-- member returns true if x is an element of slice s, and false otherwise
def member (x : Int) : List Int → Bool
  | [] => false
  | y :: ys => x == y || member x ys

-- sum computes the sum Σ_{i ≥ k, p(i)} f(i) as long as p(i) holds
-- (Go: for i := k; p(i); i++ { sum += f(i) }), embedded with explicit fuel
def sum (fuel : Nat) (f : Int → Int) (k : Int) (p : Int → Bool) : Int :=
  match fuel with
  | 0 => 0
  | Nat.succ fuel => if p k then f k + sum fuel f (k + 1) p else 0

-- The Gregorian calendar

structure GregorianDate where
  Year : Int
  Month : Int
  Day : Int
deriving DecidableEq, Repr

-- LastDayOfGregorianMonth returns the last day (number of days) of a given
-- Gregorian month
def LastDayOfGregorianMonth (month year : Int) : Int :=
  let daysInMonths : List Int := [31, 28, 31, 30, 31, 30, 31, 31, 30, 31, 30, 31]
  if month == 2 && mod year 4 == 0 && !(member (mod year 400) [100, 200, 300]) then
    29
  else
    daysInMonths.getD (month - 1).toNat 0

-- AbsoluteFromGregorian computes the absolute (fixed) date from a
-- Gregorian date
def AbsoluteFromGregorian (d : GregorianDate) : Int :=
  let year := d.Year
  let month := d.Month
  let day := d.Day
  let f := fun m => LastDayOfGregorianMonth m year
  day +
    sum 13 f 1 (fun m => decide (m < month)) +
    (365 * (year - 1)) +
    Int.fdiv (year - 1) 4 +
    (-(Int.fdiv (year - 1) 100)) +
    Int.fdiv (year - 1) 400

-- the year computation of GregorianFromAbsolute (source lines 95-110),
-- split out as a named definition
def gregYearFromAbsolute (absoluteDate : Int) : Int :=
  let d_0 := absoluteDate - 1
  let n_400 := Int.fdiv d_0 146097
  let d_1 := mod d_0 146097
  let n_100 := Int.fdiv d_1 36524
  let d_2 := mod d_1 36524
  let n_4 := Int.fdiv d_2 1461
  let d_3 := mod d_2 1461
  let n_1 := Int.fdiv d_3 365
  let year := 400 * n_400 + 100 * n_100 + 4 * n_4 + n_1
  if n_100 == 4 || n_1 == 4 then year else year + 1

-- GregorianFromAbsolute computes the Gregorian date corresponding to a
-- given absolute date
def GregorianFromAbsolute (absoluteDate : Int) : GregorianDate :=
  let year := gregYearFromAbsolute absoluteDate
  let f := fun (_ : Int) => (1 : Int)
  let p := fun m => decide
    (absoluteDate > AbsoluteFromGregorian ⟨year, m, LastDayOfGregorianMonth m year⟩)
  let month := sum 13 f 1 p + 1
  let day := absoluteDate - (AbsoluteFromGregorian ⟨year, month, 1⟩ - 1)
  ⟨year, month, day⟩

-- helper: the Gregorian leap-year condition appearing in LastDayOfGregorianMonth
def leapB (year : Int) : Bool :=
  mod year 4 == 0 && !(member (mod year 400) [100, 200, 300])

-- helper: days strictly before January 1 of Gregorian year y (the year part of
-- AbsoluteFromGregorian), in Euclidean-division form
def dy (y : Int) : Int :=
  365 * (y - 1) + (y - 1) / 4 - (y - 1) / 100 + (y - 1) / 400

-- helper: days strictly before month m of Gregorian year y
def cumG (y m : Int) : Int :=
  (if m ≤ 1 then 0 else if m ≤ 2 then 31 else if m ≤ 3 then 59 else if m ≤ 4 then 90
    else if m ≤ 5 then 120 else if m ≤ 6 then 151 else if m ≤ 7 then 181
    else if m ≤ 8 then 212 else if m ≤ 9 then 243 else if m ≤ 10 then 273
    else if m ≤ 11 then 304 else if m ≤ 12 then 334 else 365) +
    (if leapB y = true ∧ 3 ≤ m then 1 else 0)

-- The Islamic calendar

structure IslamicDate where
  Year : Int
  Month : Int
  Day : Int
deriving DecidableEq, Repr

-- IslamicLeapYear returns true if a given Islamic year is leap
def IslamicLeapYear (year : Int) : Bool :=
  decide (mod (14 + 11 * year) 30 < 11)

-- LastDayOfIslamicMonth determines the last day of an Islamic month
def LastDayOfIslamicMonth (month year : Int) : Int :=
  if mod month 2 != 0 || (month == 12 && IslamicLeapYear year) then 30 else 29

-- AbsoluteFromIslamic computes the absolute date corresponding to a given
-- Islamic date
def AbsoluteFromIslamic (d : IslamicDate) : Int :=
  let year := d.Year
  let month := d.Month
  let day := d.Day
  day +
    (29 * (month - 1)) +
    Int.fdiv month 2 +
    ((year - 1) * 354) +
    Int.fdiv (3 + 11 * year) 30 +
    227014

-- IslamicFromAbsolute computes the Islamic date corresponding to a given
-- absolute date (year-search loop embedded with fuel 400, month loop 13)
def IslamicFromAbsolute (absoluteDate : Int) : IslamicDate :=
  if absoluteDate ≤ 227014 then
    ⟨0, 0, 0⟩
  else
    let approx := Int.fdiv (absoluteDate - 227014) 355
    let f := fun (_ : Int) => (1 : Int)
    let year := approx + sum 400 f approx
      (fun y => decide (absoluteDate ≥ AbsoluteFromIslamic ⟨y + 1, 1, 1⟩))
    let month := 1 + sum 13 f 1
      (fun m => decide (absoluteDate > AbsoluteFromIslamic ⟨year, m, LastDayOfIslamicMonth m year⟩))
    let day := absoluteDate - (AbsoluteFromIslamic ⟨year, month, 1⟩ - 1)
    ⟨year, month, day⟩

-- The Hebrew calendar

-- HebrewLeapYear returns true if year is a Hebrew leap year
def HebrewLeapYear (year : Int) : Bool :=
  decide (mod (1 + 7 * year) 19 < 7)

-- HebrewCalendarElapsedDays computes the number of days elapsed from the
-- Sunday prior to the start of the Hebrew calendar to the mean conjunction
-- of Tishri of a given Hebrew year
def HebrewCalendarElapsedDays (year : Int) : Int :=
  let monthsElapsed := (235 * Int.fdiv (year - 1) 19) +
    (12 * mod (year - 1) 19) +
    Int.fdiv (7 * mod (year - 1) 19 + 1) 19
  let partsElapsed := 204 + 793 * mod monthsElapsed 1080
  let hoursElapsed := 5 +
    12 * monthsElapsed +
    793 * Int.fdiv monthsElapsed 1080 +
    Int.fdiv partsElapsed 1080
  let day := 1 + 29 * monthsElapsed + Int.fdiv hoursElapsed 24
  let parts := 1080 * mod hoursElapsed 24 + mod partsElapsed 1080
  let alternativeDay :=
    if decide (parts ≥ 19440) ||
        (mod day 7 == 2 && decide (parts ≥ 9924) && !(HebrewLeapYear year)) ||
        (mod day 7 == 1 && decide (parts ≥ 16789) && HebrewLeapYear (year - 1)) then
      day + 1
    else
      day
  if member (mod alternativeDay 7) [0, 3, 5] then
    alternativeDay + 1
  else
    alternativeDay

-- DaysInHebrewYear computes the number of days in a given Hebrew year
def DaysInHebrewYear (year : Int) : Int :=
  HebrewCalendarElapsedDays (year + 1) - HebrewCalendarElapsedDays year

-- LongHeshvan returns true if Heshvan is long in a given Hebrew year
def LongHeshvan (year : Int) : Bool :=
  mod (DaysInHebrewYear year) 10 == 5

-- ShortKislev returns true if Kislev is short in a given Hebrew year
def ShortKislev (year : Int) : Bool :=
  mod (DaysInHebrewYear year) 10 == 3

-- LastDayOfHebrewMonth returns the number of days of a given Hebrew month
def LastDayOfHebrewMonth (month year : Int) : Int :=
  if member month [2, 4, 6, 10, 13] ||
      (month == 12 && !(HebrewLeapYear year)) ||
      (month == 8 && !(LongHeshvan year)) ||
      (month == 9 && ShortKislev year) then
    29
  else
    30

-- The Mayan calendars

structure MayanHaabDate where
  Day : Int
  Month : Int
deriving DecidableEq, Repr

structure MayanTzolkinDate where
  Number : Int
  Name : Int
deriving DecidableEq, Repr

-- Goodman-Martinez-Thompson correlation
def MayanDaysBeforeAbsoluteZero : Int := 1137142

-- haab date at long count 0.0.0.0.0 (month 18 = cumku)
def MayanHaabAtEpoch : MayanHaabDate := ⟨8, 18⟩

-- MayanHaabFromAbsolute returns the Mayan haab date corresponding to a given
-- absolute date
def MayanHaabFromAbsolute (absoluteDate : Int) : MayanHaabDate :=
  let longCount := absoluteDate + MayanDaysBeforeAbsoluteZero
  let dayOfHaab :=
    mod (longCount + MayanHaabAtEpoch.Day + (20 * (MayanHaabAtEpoch.Month - 1))) 365
  let day := mod dayOfHaab 20
  let month := Int.fdiv dayOfHaab 20 + 1
  ⟨day, month⟩

-- MayanHaabDifference computes the number of days between two haab dates
def MayanHaabDifference (d1 d2 : MayanHaabDate) : Int :=
  mod (20 * (d2.Day - d1.Day) + (d2.Month - d1.Month)) 365

-- MayanHaabOnOrBefore: faithful to the Go source, where the body reads the
-- *named return value* `date` (still zero-initialized at that point) instead
-- of the parameter `d`:  return d - mod(date - haabDifference(...), 365)
def MayanHaabOnOrBefore (haab : MayanHaabDate) (d : Int) : Int :=
  d - mod (0 - MayanHaabDifference (MayanHaabFromAbsolute 0) haab) 365

-- tzolkin date at long count 0.0.0.0.0 (name 20 = ahau)
def MayanTzolkinAtEpoch : MayanTzolkinDate := ⟨4, 20⟩

-- MayanTzolkinFromAbsolute returns the Mayan tzolkin date corresponding to a
-- given absolute date
def MayanTzolkinFromAbsolute (absoluteDate : Int) : MayanTzolkinDate :=
  let longCount := absoluteDate + MayanDaysBeforeAbsoluteZero
  let number := amod (longCount + MayanTzolkinAtEpoch.Number) 13
  let name := amod (longCount + MayanTzolkinAtEpoch.Name) 20
  ⟨number, name⟩

-- MayanTzolkinDifference returns the number of days between two tzolkin dates
def MayanTzolkinDifference (d1 d2 : MayanTzolkinDate) : Int :=
  let numberDifference := d2.Number - d1.Number
  let nameDifference := d2.Name - d1.Name
  mod (numberDifference + 13 * mod (3 * (numberDifference - nameDifference)) 20) 260

-- MayanHaabTzolkinOnOrBefore returns the absolute date of the latest date on
-- or before d matching the given haab and tzolkin dates; the Go function
-- returns math.NaN() when no such combination exists, modelled as `none`
def MayanHaabTzolkinOnOrBefore (haab : MayanHaabDate) (tzolkin : MayanTzolkinDate)
    (d : Int) : Option Int :=
  let haabDifference := MayanHaabDifference (MayanHaabFromAbsolute 0) haab
  let tzolkinDifference := MayanTzolkinDifference (MayanTzolkinFromAbsolute 0) tzolkin
  let difference := tzolkinDifference - haabDifference
  if mod difference 5 == 0 then
    some (d - mod (d - (haabDifference + (365 * difference))) 18980)
  else
    none

-- The French Revolutionary calendar

-- FrenchLeapYear returns true if a given French Revolutionary year is leap
def FrenchLeapYear (year : Int) : Bool :=
  member year [3, 7, 11] ||
    member year [15, 20] ||
    (decide (year > 20) &&
      mod year 4 == 0 &&
      !(member (mod year 400) [100, 200, 300]) &&
      mod year 4000 != 0)

-- The Old Hindu calendars.  Go's *big.Rat becomes the core `Rat` type and the
-- Go convenience helpers ratio/add/sub/mult/div/floor/floorf/quotient/modr
-- from the utilities file become the wrappers below (core Rat operations are
-- used directly so that every definition reduces in the kernel; Go's
-- floorf/quotient convert the exact rational to float64 before flooring,
-- which is exact for the magnitudes involved and modelled as the exact floor)

-- ratio builds the rational x/y (Go: big.NewRat)
def ratio (x y : Int) : Rat := Rat.divInt x y

-- add computes the sum of two rationals
def add (x y : Rat) : Rat := Rat.add x y

-- sub computes the difference of two rationals
def sub (x y : Rat) : Rat := Rat.sub x y

-- mult computes the product of two rationals
def mult (x y : Rat) : Rat := Rat.mul x y

-- div computes the quotient of two rationals
def div (x y : Rat) : Rat := Rat.div x y

-- floorf returns the greatest integer less than or equal to x, as an integer
def floorf (x : Rat) : Int := Rat.floor x

-- floorr is Go's `floor`: the floor of x as a rational
def floorr (x : Rat) : Rat := ratio (floorf x) 1

-- quotient computes the quotient of two rationals, floored (Go applies
-- math.Floor to the float64 value of the exact quotient)
def quotient (x y : Rat) : Int := Rat.floor (Rat.div x y)

-- modr computes the positive rational remainder of a mod b
def modr (a b : Rat) : Rat :=
  let r := sub a (mult b (floorr (div a b)))
  if Rat.blt r 0 then add r b else r

def SolarSiderealYear : Rat := add (ratio 365 1) (ratio 279457 1080000)
def SolarMonth : Rat := div SolarSiderealYear (ratio 12 1)
def LunarSiderealMonth : Rat := add (ratio 27 1) (ratio 4644439 14438334)
def LunarSynodicMonth : Rat := add (ratio 29 1) (ratio 7087771 13358334)

-- SolarLongitude returns the position of the sun (in degrees) at moment t
def SolarLongitude (t : Rat) : Rat :=
  mult (modr (div t SolarSiderealYear) (ratio 1 1)) (ratio 360 1)

-- Zodiac returns the zodiacal sign for a given moment
def Zodiac (t : Rat) : Int :=
  quotient (SolarLongitude t) (ratio 30 1) + 1

-- LunarLongitude returns the sidereal longitude of the moon at moment t
def LunarLongitude (t : Rat) : Rat :=
  mult (modr (div t LunarSiderealMonth) (ratio 1 1)) (ratio 360 1)

-- LunarPhase computes the lunar phase of the moon at moment t
def LunarPhase (t : Rat) : Int :=
  1 + quotient (modr (sub (LunarLongitude t) (SolarLongitude t)) (ratio 360 1)) (ratio 12 1)

-- NewMoon determines the time of the most recent new moon at/before moment t
def NewMoon (t : Rat) : Rat :=
  sub t (modr t LunarSynodicMonth)

structure OldHinduLunarDate where
  Year : Int
  Month : Int
  LeapMonth : Bool
  Day : Int
deriving DecidableEq, Repr

-- OldHinduLunarFromAbsolute returns the Old Hindu lunar date corresponding
-- to a given absolute date
def OldHinduLunarFromAbsolute (absoluteDate : Int) : OldHinduLunarDate :=
  let hdate : Rat := ratio (absoluteDate + 1132959) 1
  let sunrise := add hdate (ratio 1 4)
  let lastNewMoon := NewMoon sunrise
  let nextNewMoon := add lastNewMoon LunarSynodicMonth
  let month := amod (Zodiac lastNewMoon + 1) 12
  let day := LunarPhase sunrise
  let leapMonth := Zodiac lastNewMoon == Zodiac nextNewMoon
  let nextMonth := add nextNewMoon (if leapMonth then LunarSynodicMonth else ratio 0 1)
  let year := quotient nextMonth SolarSiderealYear
  ⟨year, month, leapMonth, day⟩

-- OldHinduLunarPrecedes returns true if lunar date d1 precedes d2
def OldHinduLunarPrecedes (d1 d2 : OldHinduLunarDate) : Bool :=
  decide (d1.Year < d2.Year) ||
    (d1.Year == d2.Year &&
      (decide (d1.Month < d2.Month) ||
        (d1.Month == d2.Month &&
          ((d1.LeapMonth && !d2.LeapMonth) ||
            (d1.LeapMonth == d2.LeapMonth && decide (d1.Day < d2.Day))))))

-- AbsoluteFromOldHinduLunar returns the absolute date corresponding to a
-- given Old Hindu lunar date; the Go function returns math.NaN() when the
-- searched date does not decode back to d, modelled as `none`
-- (search loop embedded with fuel 2000)
def AbsoluteFromOldHinduLunar (d : OldHinduLunarDate) : Option Int :=
  let years := d.Year
  let months := d.Month - 2
  let approx := floorf (mult (ratio years 1) SolarSiderealYear) +
    floorf (mult (ratio months 1) LunarSynodicMonth) +
    (-1132959)
  let try_ := approx + sum 2000 (fun _ => 1) approx
    (fun i => OldHinduLunarPrecedes (OldHinduLunarFromAbsolute i) d)
  if OldHinduLunarFromAbsolute try_ = d then some try_ else none

-- Basic bridging lemmas: for a positive modulus the Go helpers agree with
-- Lean's Euclidean `/` and `%` on Int (which omega understands)

theorem fdiv_eq_ediv (a b : Int) (hb : 0 ≤ b) : Int.fdiv a b = a / b :=
  Int.fdiv_eq_ediv a hb

theorem mod_eq_emod (a b : Int) (hb : 0 < b) : mod a b = a % b := by
  have h1 : Int.fdiv a b = a / b := Int.fdiv_eq_ediv a (le_of_lt hb)
  have h2 : a - b * (a / b) = a % b := by
    rw [Int.emod_def]
  have h3 : 0 ≤ a % b := Int.emod_nonneg a (by omega)
  simp only [mod, h1, h2]
  omega

theorem amod_eq (a b : Int) (hb : 0 < b) : amod a b = (a - 1) % b + 1 := by
  simp only [amod, mod_eq_emod _ _ hb]

-- counting form of the sum loop: if p first turns false at m, the constant-one
-- sum counts the m - k loop iterations
theorem sum_one_eq (fuel : Nat) (k m : Int) (p : Int → Bool) (hk : k ≤ m)
    (hfuel : m - k < fuel) (htrue : ∀ i, k ≤ i → i < m → p i = true)
    (hfalse : p m = false) : sum fuel (fun _ => 1) k p = m - k := by
  induction fuel generalizing k with
  | zero => omega
  | succ fuel ih =>
    by_cases hkm : k = m
    · subst hkm
      simp [sum, hfalse]
    · have hk' : k < m := lt_of_le_of_ne hk hkm
      have hpk : p k = true := htrue k le_rfl hk'
      simp only [sum, hpk, if_true]
      rw [ih (k + 1) (by omega) (by omega) (fun i h1 h2 => htrue i (by omega) h2)]
      omega

theorem leapB_iff (y : Int) : leapB y = true ↔
    (y % 4 = 0 ∧ ¬(y % 400 = 100 ∨ y % 400 = 200 ∨ y % 400 = 300)) := by
  simp [leapB, member, mod_eq_emod _ _ (by norm_num : (0:Int) < 4),
    mod_eq_emod _ _ (by norm_num : (0:Int) < 400)]

theorem lastDayG_feb (y : Int) :
    LastDayOfGregorianMonth 2 y = if leapB y = true then 29 else 28 := by
  simp only [LastDayOfGregorianMonth, leapB]
  norm_num [Bool.and_assoc]

theorem lastDayG_1 (y : Int) : LastDayOfGregorianMonth 1 y = 31 := rfl
theorem lastDayG_3 (y : Int) : LastDayOfGregorianMonth 3 y = 31 := rfl
theorem lastDayG_4 (y : Int) : LastDayOfGregorianMonth 4 y = 30 := rfl
theorem lastDayG_5 (y : Int) : LastDayOfGregorianMonth 5 y = 31 := rfl
theorem lastDayG_6 (y : Int) : LastDayOfGregorianMonth 6 y = 30 := rfl
theorem lastDayG_7 (y : Int) : LastDayOfGregorianMonth 7 y = 31 := rfl
theorem lastDayG_8 (y : Int) : LastDayOfGregorianMonth 8 y = 31 := rfl
theorem lastDayG_9 (y : Int) : LastDayOfGregorianMonth 9 y = 30 := rfl
theorem lastDayG_10 (y : Int) : LastDayOfGregorianMonth 10 y = 31 := rfl
theorem lastDayG_11 (y : Int) : LastDayOfGregorianMonth 11 y = 30 := rfl
theorem lastDayG_12 (y : Int) : LastDayOfGregorianMonth 12 y = 31 := rfl

theorem dy_succ (y : Int) : dy (y + 1) = dy y + 365 + (if leapB y = true then 1 else 0) := by
  by_cases h : leapB y = true
  · rw [if_pos h]
    have hp := (leapB_iff y).mp h
    simp only [dy]
    omega
  · rw [if_neg h]
    have hp := mt (leapB_iff y).mpr h
    simp only [dy]
    omega

theorem dy_mono (y y' : Int) (h : y ≤ y') : dy y ≤ dy y' := by
  simp only [dy]
  omega

theorem absG_closed (y m d : Int) (h1 : 1 ≤ m) (h2 : m ≤ 12) :
    AbsoluteFromGregorian ⟨y, m, d⟩ = dy y + (cumG y m + d) := by
  have hf4 : Int.fdiv (y - 1) 4 = (y - 1) / 4 := Int.fdiv_eq_ediv _ (by norm_num)
  have hf100 : Int.fdiv (y - 1) 100 = (y - 1) / 100 := Int.fdiv_eq_ediv _ (by norm_num)
  have hf400 : Int.fdiv (y - 1) 400 = (y - 1) / 400 := Int.fdiv_eq_ediv _ (by norm_num)
  interval_cases m <;>
    simp only [AbsoluteFromGregorian, sum, dy, cumG, hf4, hf100, hf400] <;>
    norm_num [lastDayG_feb, lastDayG_1, lastDayG_3, lastDayG_4, lastDayG_5, lastDayG_6,
      lastDayG_7, lastDayG_8, lastDayG_9, lastDayG_10, lastDayG_11, lastDayG_12] <;>
    (try split_ifs) <;>
    omega

-- the year computation of GregorianFromAbsolute is correct on the 400-year
-- cycle digit decomposition of the year
theorem year_digits (D E F G r : Int) (hD : 0 ≤ D) (hE : 0 ≤ E) (hE' : E ≤ 3)
    (hF : 0 ≤ F) (hF' : F ≤ 24) (hG : 0 ≤ G) (hG' : G ≤ 3) (hr : 1 ≤ r)
    (hr' : r ≤ 365 + (if G = 3 ∧ (F ≠ 24 ∨ E = 3) then 1 else 0)) :
    gregYearFromAbsolute (146097 * D + 36524 * E + 1461 * F + 365 * G + r) =
      400 * D + 100 * E + 4 * F + G + 1 := by
  simp only [gregYearFromAbsolute,
    mod_eq_emod _ _ (show (0:Int) < 146097 by norm_num),
    mod_eq_emod _ _ (show (0:Int) < 36524 by norm_num),
    mod_eq_emod _ _ (show (0:Int) < 1461 by norm_num),
    Int.fdiv_eq_ediv _ (show (0:Int) ≤ 146097 by norm_num),
    Int.fdiv_eq_ediv _ (show (0:Int) ≤ 36524 by norm_num),
    Int.fdiv_eq_ediv _ (show (0:Int) ≤ 1461 by norm_num),
    Int.fdiv_eq_ediv _ (show (0:Int) ≤ 365 by norm_num)]
  have e1 : (146097 * D + 36524 * E + 1461 * F + 365 * G + r - 1) % 146097 =
      36524 * E + 1461 * F + 365 * G + r - 1 := by
    split at hr' <;> omega
  have e2 : (146097 * D + 36524 * E + 1461 * F + 365 * G + r - 1) / 146097 = D := by
    split at hr' <;> omega
  rw [e1, e2]
  by_cases hb : F = 24 ∧ G = 3 ∧ r = 366
  · obtain ⟨hF24, hG3, hr366⟩ := hb
    have hE3 : E = 3 := by
      split at hr' <;> omega
    subst hF24 hG3 hr366 hE3
    norm_num
    all_goals omega
  · have e3 : (36524 * E + 1461 * F + 365 * G + r - 1) / 36524 = E := by
      split at hr' <;> omega
    have e4 : (36524 * E + 1461 * F + 365 * G + r - 1) % 36524 =
        1461 * F + 365 * G + r - 1 := by
      split at hr' <;> omega
    rw [e3, e4]
    have e5 : (1461 * F + 365 * G + r - 1) / 1461 = F := by
      split at hr' <;> omega
    have e6 : (1461 * F + 365 * G + r - 1) % 1461 = 365 * G + r - 1 := by
      split at hr' <;> omega
    rw [e5, e6]
    by_cases hr366 : r = 366
    · have hG3 : G = 3 := by split at hr' <;> omega
      subst hr366 hG3
      norm_num
      all_goals omega
    · have e7 : (365 * G + r - 1) / 365 = G := by omega
      rw [e7]
      split <;> rename_i hc <;>
        simp only [beq_iff_eq, Bool.or_eq_true, decide_eq_true_eq] at hc <;> omega

theorem gregYear_correct (y a : Int) (hy : 1 ≤ y) (hlo : dy y < a)
    (hhi : a ≤ dy y + 365 + (if leapB y = true then 1 else 0)) :
    gregYearFromAbsolute a = y := by
  set D := (y - 1) / 400 with hDdef
  set E := (y - 1) % 400 / 100 with hEdef
  set F := (y - 1) % 400 % 100 / 4 with hFdef
  set G := (y - 1) % 400 % 100 % 4 with hGdef
  have hdy : dy y = 146097 * D + 36524 * E + 1461 * F + 365 * G := by
    simp only [dy, hDdef, hEdef, hFdef, hGdef]
    omega
  have hleap : leapB y = true ↔ (G = 3 ∧ (F ≠ 24 ∨ E = 3)) := by
    rw [leapB_iff]
    omega
  set r := a - dy y with hrdef
  have ha : a = 146097 * D + 36524 * E + 1461 * F + 365 * G + r := by omega
  have hyy : y = 400 * D + 100 * E + 4 * F + G + 1 := by omega
  have hr' : r ≤ 365 + (if G = 3 ∧ (F ≠ 24 ∨ E = 3) then 1 else 0) := by
    by_cases hL : leapB y = true
    · rw [if_pos (hleap.mp hL)]
      rw [if_pos hL] at hhi
      omega
    · rw [if_neg (fun hc => hL (hleap.mpr hc))]
      rw [if_neg hL] at hhi
      omega
  rw [ha, hyy]
  exact year_digits D E F G r (by omega) (by omega) (by omega) (by omega) (by omega)
    (by omega) (by omega) (by omega) hr'

-- day-of-year bounds and cumulative-month-length facts

theorem doy_bounds (y m d : Int) (h1 : 1 ≤ m) (h2 : m ≤ 12) (hd1 : 1 ≤ d)
    (hd2 : d ≤ LastDayOfGregorianMonth m y) :
    1 ≤ cumG y m + d ∧ cumG y m + d ≤ 365 + (if leapB y = true then 1 else 0) := by
  interval_cases m <;>
    rw [cumG] <;>
    norm_num [lastDayG_feb, lastDayG_1, lastDayG_3, lastDayG_4, lastDayG_5, lastDayG_6,
      lastDayG_7, lastDayG_8, lastDayG_9, lastDayG_10, lastDayG_11, lastDayG_12] at hd2 ⊢ <;>
    split_ifs <;>
    omega

theorem cum_step (y m : Int) (h1 : 1 ≤ m) (h2 : m ≤ 12) :
    cumG y (m + 1) = cumG y m + LastDayOfGregorianMonth m y := by
  interval_cases m <;>
    simp only [cumG] <;>
    norm_num [lastDayG_feb, lastDayG_1, lastDayG_3, lastDayG_4, lastDayG_5, lastDayG_6,
      lastDayG_7, lastDayG_8, lastDayG_9, lastDayG_10, lastDayG_11, lastDayG_12] <;>
    split_ifs <;>
    omega

theorem lastDayG_pos (y m : Int) (h1 : 1 ≤ m) (h2 : m ≤ 12) :
    0 < LastDayOfGregorianMonth m y := by
  interval_cases m <;>
    norm_num [lastDayG_feb, lastDayG_1, lastDayG_3, lastDayG_4, lastDayG_5, lastDayG_6,
      lastDayG_7, lastDayG_8, lastDayG_9, lastDayG_10, lastDayG_11, lastDayG_12] <;>
    split_ifs <;>
    omega

theorem cum_mono_aux (n : Nat) (y m : Int) (h1 : 1 ≤ m) (h2 : m + n ≤ 13) :
    cumG y m ≤ cumG y (m + n) := by
  induction n with
  | zero => simp
  | succ n ih =>
    have hstep : cumG y (m + n + 1) = cumG y (m + n) + LastDayOfGregorianMonth (m + n) y :=
      cum_step y (m + n) (by omega) (by omega)
    have hpos := lastDayG_pos y (m + n) (by omega) (by omega)
    have := ih (by omega)
    have harg : m + (n + 1 : Nat) = m + n + 1 := by push_cast; ring
    rw [harg, hstep]
    omega

theorem cum_mono (y m m' : Int) (h1 : 1 ≤ m) (h : m ≤ m') (h2 : m' ≤ 13) :
    cumG y m ≤ cumG y m' := by
  have harg : m' = m + ((m' - m).toNat : Int) := by omega
  rw [harg]
  exact cum_mono_aux (m' - m).toNat y m h1 (by omega)

theorem gregorian_roundtrip (y m d : Int) (hy : 1 ≤ y) (hm1 : 1 ≤ m) (hm2 : m ≤ 12)
    (hd1 : 1 ≤ d) (hd2 : d ≤ LastDayOfGregorianMonth m y) :
    GregorianFromAbsolute (AbsoluteFromGregorian ⟨y, m, d⟩) = ⟨y, m, d⟩ := by
  set a := AbsoluteFromGregorian ⟨y, m, d⟩ with haDef
  have hclosed : a = dy y + (cumG y m + d) := absG_closed y m d hm1 hm2
  have hdoy := doy_bounds y m d hm1 hm2 hd1 hd2
  have hyear : gregYearFromAbsolute a = y :=
    gregYear_correct y a hy (by omega) (by omega)
  have htrue : ∀ i, 1 ≤ i → i < m →
      (decide (a > AbsoluteFromGregorian ⟨y, i, LastDayOfGregorianMonth i y⟩)) = true := by
    intro i hi1 hi2
    rw [decide_eq_true_eq]
    rw [absG_closed y i _ (by omega) (by omega)]
    have hst := cum_step y i (by omega) (by omega)
    have hmono := cum_mono y (i + 1) m (by omega) (by omega) (by omega)
    omega
  have hfalse :
      (decide (a > AbsoluteFromGregorian ⟨y, m, LastDayOfGregorianMonth m y⟩)) = false := by
    rw [decide_eq_false_iff_not]
    rw [absG_closed y m _ hm1 hm2]
    omega
  have hsum : sum 13 (fun _ => 1) 1
      (fun i => decide (a > AbsoluteFromGregorian ⟨y, i, LastDayOfGregorianMonth i y⟩)) =
      m - 1 :=
    sum_one_eq 13 1 m _ (by omega) (by omega) htrue hfalse
  simp only [GregorianFromAbsolute, hyear, hsum]
  have hm' : m - 1 + 1 = m := by omega
  rw [hm']
  rw [absG_closed y m 1 hm1 hm2]
  simp only [GregorianDate.mk.injEq, true_and]
  omega

theorem gregorian_monotone (y1 m1 d1 y2 m2 d2 : Int)
    (hy1 : 1 ≤ y1) (hm11 : 1 ≤ m1) (hm12 : m1 ≤ 12) (hd11 : 1 ≤ d1)
    (hd12 : d1 ≤ LastDayOfGregorianMonth m1 y1)
    (hy2 : 1 ≤ y2) (hm21 : 1 ≤ m2) (hm22 : m2 ≤ 12) (hd21 : 1 ≤ d2)
    (hd22 : d2 ≤ LastDayOfGregorianMonth m2 y2)
    (hlex : y1 < y2 ∨ (y1 = y2 ∧ (m1 < m2 ∨ (m1 = m2 ∧ d1 < d2)))) :
    AbsoluteFromGregorian ⟨y1, m1, d1⟩ < AbsoluteFromGregorian ⟨y2, m2, d2⟩ := by
  rw [absG_closed y1 m1 d1 hm11 hm12, absG_closed y2 m2 d2 hm21 hm22]
  have hdoy1 := doy_bounds y1 m1 d1 hm11 hm12 hd11 hd12
  have hdoy2 := doy_bounds y2 m2 d2 hm21 hm22 hd21 hd22
  rcases hlex with hlt | ⟨rfl, hrest⟩
  · have hsucc := dy_succ y1
    have hmono := dy_mono (y1 + 1) y2 (by omega)
    omega
  · rcases hrest with hmlt | ⟨rfl, hdlt⟩
    · have hst := cum_step y1 m1 hm11 hm12
      have hmono := cum_mono y1 (m1 + 1) m2 (by omega) (by omega) (by omega)
      omega
    · omega

theorem mod_nonneg' (a b : Int) (hb : 0 < b) : 0 ≤ mod a b := by
  rw [mod_eq_emod a b hb]
  exact Int.emod_nonneg a (by omega)

theorem sum_one_nonneg (fuel : Nat) (k : Int) (p : Int → Bool) :
    0 ≤ sum fuel (fun _ => 1) k p := by
  induction fuel generalizing k with
  | zero => simp [sum]
  | succ n ih =>
    simp only [sum]
    split
    · have := ih (k + 1)
      omega
    · omega

end Libcalendar

open Libcalendar

/-- Claim C1: for every valid Gregorian date d (year ≥ 1, 1 ≤ month ≤ 12,
1 ≤ day ≤ LastDayOfGregorianMonth(month, year)), converting d to an absolute
date and back recovers d exactly:
GregorianFromAbsolute(AbsoluteFromGregorian(d)) = d. -/
theorem claim_C1_gregorian_roundtrip (y m d : Int) (hy : 1 ≤ y) (hm1 : 1 ≤ m)
    (hm2 : m ≤ 12) (hd1 : 1 ≤ d) (hd2 : d ≤ LastDayOfGregorianMonth m y) :
    GregorianFromAbsolute (AbsoluteFromGregorian ⟨y, m, d⟩) = ⟨y, m, d⟩ :=
  gregorian_roundtrip y m d hy hm1 hm2 hd1 hd2

/-- Witness for C1 at the concrete valid Gregorian date 2024-02-29. -/
theorem claim_C1_witness :
    (1 : Int) ≤ 2024 ∧ (1 : Int) ≤ 2 ∧ (2 : Int) ≤ 12 ∧ (1 : Int) ≤ 29 ∧
      (29 : Int) ≤ LastDayOfGregorianMonth 2 2024 ∧
      GregorianFromAbsolute (AbsoluteFromGregorian ⟨2024, 2, 29⟩) = ⟨2024, 2, 29⟩ :=
  ⟨by norm_num, by norm_num, by norm_num, by norm_num, by decide,
    claim_C1_gregorian_roundtrip 2024 2 29 (by norm_num) (by norm_num) (by norm_num)
      (by norm_num) (by decide)⟩

/-- Claim C2: AbsoluteFromGregorian is strictly increasing in the
lexicographic order of (year, month, day) on valid Gregorian dates. -/
theorem claim_C2_gregorian_strict_mono (y1 m1 d1 y2 m2 d2 : Int)
    (hy1 : 1 ≤ y1) (hm11 : 1 ≤ m1) (hm12 : m1 ≤ 12) (hd11 : 1 ≤ d1)
    (hd12 : d1 ≤ LastDayOfGregorianMonth m1 y1)
    (hy2 : 1 ≤ y2) (hm21 : 1 ≤ m2) (hm22 : m2 ≤ 12) (hd21 : 1 ≤ d2)
    (hd22 : d2 ≤ LastDayOfGregorianMonth m2 y2)
    (hlex : y1 < y2 ∨ (y1 = y2 ∧ (m1 < m2 ∨ (m1 = m2 ∧ d1 < d2)))) :
    AbsoluteFromGregorian ⟨y1, m1, d1⟩ < AbsoluteFromGregorian ⟨y2, m2, d2⟩ :=
  gregorian_monotone y1 m1 d1 y2 m2 d2 hy1 hm11 hm12 hd11 hd12 hy2 hm21 hm22 hd21 hd22 hlex

/-- Witness for C2: 2023-12-31 precedes 2024-01-01 lexicographically and in
absolute dates. -/
theorem claim_C2_witness :
    AbsoluteFromGregorian ⟨2023, 12, 31⟩ < AbsoluteFromGregorian ⟨2024, 1, 1⟩ :=
  claim_C2_gregorian_strict_mono 2023 12 31 2024 1 1 (by norm_num) (by norm_num)
    (by norm_num) (by norm_num) (by decide) (by norm_num) (by norm_num) (by norm_num)
    (by norm_num) (by decide) (Or.inl (by norm_num))

/-- Claim C9: AbsoluteFromGregorian maps (1,1,1) to 1 and (2022,6,15)
to 738321. -/
theorem claim_C9_gregorian_anchors :
    AbsoluteFromGregorian ⟨1, 1, 1⟩ = 1 ∧ AbsoluteFromGregorian ⟨2022, 6, 15⟩ = 738321 := by
  decide

/-- Claim C3 counterexample: the French Revolutionary leap-year function
treats years 15 and 20 as LEAP years (they sit in the second exception list,
joined by ||), contradicting the claim that they are non-leap by override. -/
theorem claim_C3_counterexample :
    FrenchLeapYear 15 = true ∧ FrenchLeapYear 20 = true := by
  decide

/-- Claim C3 (amended): FrenchLeapYear treats years 3, 7, 11, 15 and 20 as
leap years by explicit exception lists, and for every year > 20 returns true
exactly when the year is divisible by 4, its remainder mod 400 is not 100,
200 or 300, and it is not divisible by 4000. -/
theorem claim_C3_amended (y : Int) :
    (FrenchLeapYear 3 = true ∧ FrenchLeapYear 7 = true ∧ FrenchLeapYear 11 = true ∧
      FrenchLeapYear 15 = true ∧ FrenchLeapYear 20 = true) ∧
    (20 < y → (FrenchLeapYear y = true ↔
      (y % 4 = 0 ∧ ¬(y % 400 = 100 ∨ y % 400 = 200 ∨ y % 400 = 300) ∧ y % 4000 ≠ 0))) := by
  refine ⟨by decide, ?_⟩
  intro hy
  simp only [FrenchLeapYear, member, mod_eq_emod _ _ (show (0:Int) < 4 by norm_num),
    mod_eq_emod _ _ (show (0:Int) < 400 by norm_num),
    mod_eq_emod _ _ (show (0:Int) < 4000 by norm_num),
    Bool.or_eq_true, Bool.and_eq_true, beq_iff_eq, bne_iff_ne, ne_eq,
    Bool.not_eq_true', Bool.or_eq_false_iff, Bool.false_eq_true,
    beq_eq_false_iff_ne, decide_eq_true_eq, or_false, gt_iff_lt, and_true]
  omega

/-- Witness for the amended C3 at year 24 (> 20, divisible by 4, ordinary). -/
theorem claim_C3_witness : FrenchLeapYear 24 = true :=
  ((claim_C3_amended 24).2 (by norm_num)).mpr (by decide)

/-- Claim C4: IslamicFromAbsolute returns the all-zero sentinel exactly for
absolute dates ≤ 227014; IslamicFromAbsolute(227015) = (1,1,1) and
AbsoluteFromIslamic((1,1,1)) = 227015. -/
theorem claim_C4_islamic_epoch (a : Int) :
    (IslamicFromAbsolute a = ⟨0, 0, 0⟩ ↔ a ≤ 227014) ∧
    IslamicFromAbsolute 227015 = ⟨1, 1, 1⟩ ∧
    AbsoluteFromIslamic ⟨1, 1, 1⟩ = 227015 := by
  refine ⟨⟨?_, ?_⟩, by decide, by decide⟩
  · intro hsent
    by_contra hgt
    push_neg at hgt
    simp only [IslamicFromAbsolute] at hsent
    rw [if_neg (by omega : ¬ a ≤ 227014)] at hsent
    simp only [IslamicDate.mk.injEq] at hsent
    have hnn := sum_one_nonneg 13 1
      (fun m => decide (a > AbsoluteFromIslamic
        ⟨Int.fdiv (a - 227014) 355 + sum 400 (fun _ => 1) (Int.fdiv (a - 227014) 355)
            (fun y => decide (a ≥ AbsoluteFromIslamic ⟨y + 1, 1, 1⟩)),
          m,
          LastDayOfIslamicMonth m
            (Int.fdiv (a - 227014) 355 + sum 400 (fun _ => 1) (Int.fdiv (a - 227014) 355)
              (fun y => decide (a ≥ AbsoluteFromIslamic ⟨y + 1, 1, 1⟩)))⟩))
    omega
  · intro hle
    simp only [IslamicFromAbsolute]
    rw [if_pos hle]

/-- Claim C5: the haab-tzolkin solver returns the no-result sentinel exactly
when (tzolkinDiff - haabDiff) mod 5 ≠ 0, and any returned date is ≤ d. -/
theorem claim_C5_haab_tzolkin (h : MayanHaabDate) (t : MayanTzolkinDate) (d : Int) :
    (MayanHaabTzolkinOnOrBefore h t d = none ↔
      ¬ mod (MayanTzolkinDifference (MayanTzolkinFromAbsolute 0) t -
        MayanHaabDifference (MayanHaabFromAbsolute 0) h) 5 = 0) ∧
    (∀ r : Int, MayanHaabTzolkinOnOrBefore h t d = some r → r ≤ d) := by
  constructor
  · simp only [MayanHaabTzolkinOnOrBefore]
    split <;> rename_i hc <;> simp_all
  · intro r hr
    simp only [MayanHaabTzolkinOnOrBefore] at hr
    split at hr <;> rename_i hc
    · simp only [Option.some.injEq] at hr
      have hnn := mod_nonneg'
        (d - (MayanHaabDifference (MayanHaabFromAbsolute 0) h +
          365 * (MayanTzolkinDifference (MayanTzolkinFromAbsolute 0) t -
            MayanHaabDifference (MayanHaabFromAbsolute 0) h))) 18980 (by norm_num)
      omega
    · exact absurd hr (by simp)

/-- Witness for C5 at the solvable pair (haab of day 0, tzolkin of day 0). -/
theorem claim_C5_witness :
    MayanHaabTzolkinOnOrBefore (MayanHaabFromAbsolute 0) (MayanTzolkinFromAbsolute 0) 0 =
      some 0 ∧ (0 : Int) ≤ 0 :=
  ⟨by decide,
    (claim_C5_haab_tzolkin (MayanHaabFromAbsolute 0) (MayanTzolkinFromAbsolute 0) 0).2 0
      (by decide)⟩

/-- Claim C6: the Hebrew year length is elapsedDays(y+1) - elapsedDays(y);
Heshvan (month 8) is long (30 days) iff the year length mod 10 is 5, and
Kislev (month 9) is short (29 days) iff the year length mod 10 is 3. -/
theorem claim_C6_hebrew_year_length (y : Int) :
    DaysInHebrewYear y = HebrewCalendarElapsedDays (y + 1) - HebrewCalendarElapsedDays y ∧
    (LastDayOfHebrewMonth 8 y = 30 ↔ DaysInHebrewYear y % 10 = 5) ∧
    (LastDayOfHebrewMonth 9 y = 29 ↔ DaysInHebrewYear y % 10 = 3) := by
  refine ⟨rfl, ?_, ?_⟩
  · by_cases hL : DaysInHebrewYear y % 10 = 5 <;>
      simp [LastDayOfHebrewMonth, member, LongHeshvan,
        mod_eq_emod _ _ (show (0:Int) < 10 by norm_num), hL]
  · by_cases hK : DaysInHebrewYear y % 10 = 3 <;>
      simp [LastDayOfHebrewMonth, member, ShortKislev,
        mod_eq_emod _ _ (show (0:Int) < 10 by norm_num), hK]

/-- Claim C7: the Old Hindu lunar forward conversion either signals "not
representable" (none, Go's NaN) or returns an absolute date that decodes back
to exactly the given lunar date. -/
theorem claim_C7_hindu_lunar_exact (d : OldHinduLunarDate) (a : Int)
    (h : AbsoluteFromOldHinduLunar d = some a) :
    OldHinduLunarFromAbsolute a = d := by
  simp only [AbsoluteFromOldHinduLunar] at h
  split at h <;> rename_i hc
  · simp only [Option.some.injEq] at h
    rw [← h]
    exact hc
  · exact absurd h (by simp)

unseal Rat.add Rat.sub Rat.mul Rat.inv in
set_option maxRecDepth 10000 in
/-- Witness for C7: the lunar date of absolute day 957 round-trips through
the forward search. -/
theorem claim_C7_witness :
    AbsoluteFromOldHinduLunar ⟨3104, 7, true, 1⟩ = some 957 ∧
    OldHinduLunarFromAbsolute 957 = ⟨3104, 7, true, 1⟩ :=
  ⟨by decide, claim_C7_hindu_lunar_exact ⟨3104, 7, true, 1⟩ 957 (by decide)⟩

/-- Claim C8: the tzolkin calendar is periodic with period 260 days and the
haab calendar with period 365 days, as observed through the difference
functions. -/
theorem claim_C8_mayan_periodicity (d : Int) :
    MayanTzolkinDifference (MayanTzolkinFromAbsolute d) (MayanTzolkinFromAbsolute (d + 260)) = 0 ∧
    MayanHaabDifference (MayanHaabFromAbsolute d) (MayanHaabFromAbsolute (d + 365)) = 0 := by
  constructor
  · simp only [MayanTzolkinDifference, MayanTzolkinFromAbsolute, MayanTzolkinAtEpoch,
      MayanDaysBeforeAbsoluteZero, amod, mod_eq_emod _ _ (show (0:Int) < 13 by norm_num),
      mod_eq_emod _ _ (show (0:Int) < 20 by norm_num),
      mod_eq_emod _ _ (show (0:Int) < 260 by norm_num)]
    omega
  · simp only [MayanHaabDifference, MayanHaabFromAbsolute, MayanHaabAtEpoch,
      MayanDaysBeforeAbsoluteZero,
      Int.fdiv_eq_ediv _ (show (0:Int) ≤ 20 by norm_num),
      mod_eq_emod _ _ (show (0:Int) < 20 by norm_num),
      mod_eq_emod _ _ (show (0:Int) < 365 by norm_num)]
    omega

/-- Claim C10 (code bug evaluation): MayanHaabOnOrBefore applied to the haab
date (10,8) = haab(0) and d = 1 returns 1, but the haab date of 1 is (11,8),
not (10,8); the most recent date on or before 1 with haab (10,8) is 0. The Go
body reads the zero-initialized named return `date` instead of the parameter
`d` inside the modulus. -/
theorem claim_C10_bug_eval :
    MayanHaabOnOrBefore ⟨10, 8⟩ 1 = 1 ∧
    MayanHaabFromAbsolute 1 ≠ ⟨10, 8⟩ ∧
    MayanHaabFromAbsolute 0 = ⟨10, 8⟩ := by
  decide
